import Mathlib

/-!
Shallow embedding of the control core of the Hose instrument-acquisition
pipeline (jvierine/Hose), covering:

- the recording scheduler state machine of
  `Main/include/HSpectrometerManager.hh` (`DetermineTimeStateWRTNow`,
  `Tokenize`, `LookUpCommand`, `ProcessCommand`, the shutdown tail of
  `Run`); the scheduler bodies appear in the header as disabled code,
  and are embedded from that text,
- the consumer registry of `Core/include/HRegisteringBufferPool.hh`,
- the buffer handling discipline of the writer stages
  `Operators/src/HSimpleMultiThreadedSpectrumDataWriter.cc` and
  `Operators/src/HDataAccumulationWriter.cc`.

Machine integers (`uint64_t`) are modelled as `Nat` with an explicit
`% 2 ^ 64` wherever the C++ arithmetic can wrap.
-/

/-! ### Integer-coded constants of HSpectrometerManager.hh -/

def UNKNOWN : Nat := 0

def RECORD_ON : Nat := 1

def RECORD_OFF : Nat := 2

def CONFIGURE_NEXT_RECORDING : Nat := 3

def RECORDING_UNTIL_OFF : Nat := 1

def RECORDING_UNTIL_TIME : Nat := 2

def IDLE : Nat := 3

def PENDING : Nat := 4

def TIME_ERROR : Int := -1

def TIME_BEFORE : Int := 0

def TIME_PENDING : Int := 1

def TIME_AFTER : Int := 2

/-! ### Time classification -/

/-- `HSpectrometerManager::DetermineTimeStateWRTNow`: classify the stored
epoch second `epoch_sec_then` against the sampled wall-clock second
`epoch_sec_now`.  The C++ subtraction `epoch_sec_now - 1` is on
`uint64_t`, so it is embedded as addition of `2 ^ 64 - 1` modulo
`2 ^ 64`. -/
def DetermineTimeStateWRTNow (epoch_sec_now epoch_sec_then : Nat) : Int :=
  let epoch_sec_now_minus_one := (epoch_sec_now + (2 ^ 64 - 1)) % 2 ^ 64
  if epoch_sec_then < epoch_sec_now_minus_one then
    TIME_BEFORE
  else if epoch_sec_now_minus_one ≤ epoch_sec_then ∧ epoch_sec_then < epoch_sec_now then
    TIME_PENDING
  else if epoch_sec_now ≤ epoch_sec_then then
    TIME_AFTER
  else
    TIME_ERROR

/-! ### Tokenization -/

/-- Split a character list at every occurrence of the delimiter,
keeping empty pieces.  Helper for the modelled `HTokenizer`. -/
def splitOnDelim (delim : Char) (s : List Char) : List (List Char) :=
  match s with
  | [] => [[]]
  | c :: rest =>
    let groups := splitOnDelim delim rest
    if c = delim then
      [] :: groups
    else
      match groups with
      | g :: gs => (c :: g) :: gs
      | [] => [[c]]

/-- Modelled from the spec: `HTokenizer.hh` is not among the sources.
`GetTokens` splits the string at every occurrence of the configured
single-character delimiter; the spec's 7-field example for
`record=set:...` forces splitting at all occurrences, and the
`include_empty` flag ("empty fields preserved") keeps or drops the
empty pieces. -/
def GetTokens (include_empty : Bool) (delim : Char) (s : String) : List String :=
  let toks := (splitOnDelim delim s.data).map (fun cs => String.mk cs)
  if include_empty then toks else toks.filter (fun t => ¬ (t = ""))

/-- `HSpectrometerManager::Tokenize`: split the command on the `=`
delimiter with empty tokens excluded; unless exactly two parts result,
return the empty list; otherwise split the second part on `:` with
empty tokens included and reinsert the first part at the front. -/
def Tokenize (command : String) : List String :=
  let temp_tokens := GetTokens false (Char.ofNat 61) command
  if temp_tokens.length ≠ 2 then
    []
  else
    let tokens := GetTokens true (Char.ofNat 58) (temp_tokens.getD 1 "")
    (temp_tokens.getD 0 "") :: tokens

/-- The tokenizer as the specification words it (for comparison with
`Tokenize`): split ONCE at the first `=`, require exactly two parts,
then split the right-hand part on `:` preserving empty fields and
reinsert the verb as field 0. -/
def TokenizeSpecOnce (command : String) : List String :=
  let left := command.data.takeWhile (fun c => ¬ (c = Char.ofNat 61))
  let rest := command.data.dropWhile (fun c => ¬ (c = Char.ofNat 61))
  match rest with
  | [] => []
  | _ :: right => String.mk left :: GetTokens true (Char.ofNat 58) (String.mk right)

/-- `HSpectrometerManager::LookUpCommand`: classify a token list into a
command code by verb fields and exact total field count. -/
def LookUpCommand (command_tokens : List String) : Nat :=
  if 2 ≤ command_tokens.length then
    if command_tokens.getD 0 "" = "record" then
      if command_tokens.getD 1 "" = "on" ∧ command_tokens.length = 5 then
        RECORD_ON
      else if command_tokens.getD 1 "" = "off" ∧ command_tokens.length = 2 then
        RECORD_OFF
      else if command_tokens.getD 1 "" = "set" ∧ command_tokens.length = 7 then
        CONFIGURE_NEXT_RECORDING
      else
        UNKNOWN
    else
      UNKNOWN
  else
    UNKNOWN

/-! ### Scheduler state and command processing -/

/-- The mutable scheduler state of `HSpectrometerManager`: the recording
state code and the recording-session metadata fields. -/
structure SchedulerState where
  fRecordingState : Nat
  fExperimentName : String
  fSourceName : String
  fScanName : String
  fEndTime : Nat
  fStartTime : Nat
deriving DecidableEq

/-- Operations the scheduler invokes on the digitizer collaborator. -/
inductive DigitizerOp where
  | Acquire
  | StopAfterNextBuffer
deriving DecidableEq

/-- Modelled from the spec: `ConvertStringToTime` is declared nowhere in
the sources; the spec's examples parse a decimal epoch second
(`start=1700000000`), embedded as a decimal digit fold. -/
def ConvertStringToTime (s : String) : Nat :=
  s.data.foldl (fun acc c => acc * 10 + (c.toNat - 48)) 0

/-- Modelled from the spec: `ConvertStringToDuration` is declared nowhere
in the sources; the spec's examples parse a decimal duration in seconds
(`duration=60`), embedded as a decimal digit fold. -/
def ConvertStringToDuration (s : String) : Nat :=
  s.data.foldl (fun acc c => acc * 10 + (c.toNat - 48)) 0

/-- `HSpectrometerManager::ConfigureWriter`: replace empty session names
by the default names before pushing them to the writer. -/
def ConfigureWriter (s : SchedulerState) : SchedulerState :=
  let s1 := if s.fExperimentName = "" then { s with fExperimentName := "ExpX" } else s
  let s2 := if s1.fSourceName = "" then { s1 with fSourceName := "SrcX" } else s1
  if s2.fScanName = "" then { s2 with fScanName := "ScnX" } else s2

/-- `HSpectrometerManager::ProcessCommand`: tokenize the command, look it
up, and dispatch on the command code and the current recording state.
The wall-clock second sampled by `DetermineTimeStateWRTNow` is passed
explicitly as `epoch_sec_now`; the returned list records the digitizer
operations invoked. -/
def ProcessCommand (epoch_sec_now : Nat) (command : String) (s : SchedulerState) :
    SchedulerState × List DigitizerOp :=
  let tokens := Tokenize command
  if tokens.length ≠ 0 then
    let command_type := LookUpCommand tokens
    if command_type = RECORD_ON then
      if s.fRecordingState = IDLE then
        let s1 := ConfigureWriter
          { s with
            fExperimentName := tokens.getD 2 ""
            fSourceName := tokens.getD 3 ""
            fScanName := tokens.getD 4 "" }
        ({ s1 with fRecordingState := RECORDING_UNTIL_OFF }, [DigitizerOp.Acquire])
      else
        (s, [])
    else if command_type = RECORD_OFF then
      if s.fRecordingState = RECORDING_UNTIL_OFF ∨ s.fRecordingState = RECORDING_UNTIL_TIME ∨
          s.fRecordingState = PENDING then
        let ops :=
          if s.fRecordingState = RECORDING_UNTIL_OFF ∨ s.fRecordingState = RECORDING_UNTIL_TIME then
            [DigitizerOp.StopAfterNextBuffer]
          else
            []
        ({ s with fRecordingState := IDLE }, ops)
      else
        (s, [])
    else if command_type = CONFIGURE_NEXT_RECORDING then
      if s.fRecordingState = IDLE then
        let s1 := ConfigureWriter
          { s with
            fExperimentName := tokens.getD 2 ""
            fSourceName := tokens.getD 3 ""
            fScanName := tokens.getD 4 "" }
        let start_time := ConvertStringToTime (tokens.getD 5 "")
        let duration := ConvertStringToDuration (tokens.getD 6 "")
        let end_time := (start_time + duration) % 2 ^ 64
        let s2 := { s1 with fStartTime := start_time, fEndTime := end_time }
        if DetermineTimeStateWRTNow epoch_sec_now end_time = TIME_AFTER then
          if DetermineTimeStateWRTNow epoch_sec_now start_time = TIME_BEFORE ∨
              DetermineTimeStateWRTNow epoch_sec_now start_time = TIME_PENDING then
            ({ s2 with fRecordingState := RECORDING_UNTIL_TIME }, [DigitizerOp.Acquire])
          else
            ({ s2 with fRecordingState := PENDING }, [])
        else
          ({ s2 with fRecordingState := IDLE }, [])
      else
        (s, [])
    else
      (s, [])
  else
    (s, [])

/-- The recording-session metadata tuple of the scheduler state. -/
def SessionMetadata (s : SchedulerState) : String × String × String × Nat × Nat :=
  (s.fExperimentName, s.fSourceName, s.fScanName, s.fStartTime, s.fEndTime)

/-! ### Shutdown tail of HSpectrometerManager::Run -/

/-- The canned stop command `fCannedStopCommand` set in the constructor. -/
def fCannedStopCommand : String := "record=off"

/-- Observable events of the shutdown tail of `Run`. -/
inductive RunEvent where
  | serverTerminate
  | processCommand (command : String)
  | digitizer (op : DigitizerOp)
  | sleepGrace
  | stopDigitizerProduction
  | stopSpectrometerConsumptionProduction
  | stopWriterConsumption
deriving DecidableEq, BEq

/-- The shutdown tail of `HSpectrometerManager::Run` (after the control
loop exits): terminate the server; if the recording state is not `IDLE`,
process the canned `record=off` command; then stop digitizer production,
spectrometer transform and writer persistence in that order with a
1-second sleep before each stop.  Returns the final scheduler state and
the event trace. -/
def RunShutdown (epoch_sec_now : Nat) (s : SchedulerState) : SchedulerState × List RunEvent :=
  let stops := [RunEvent.sleepGrace, RunEvent.stopDigitizerProduction,
                RunEvent.sleepGrace, RunEvent.stopSpectrometerConsumptionProduction,
                RunEvent.sleepGrace, RunEvent.stopWriterConsumption]
  if s.fRecordingState ≠ IDLE then
    let r := ProcessCommand epoch_sec_now fCannedStopCommand s
    (r.1, RunEvent.serverTerminate ::
          (RunEvent.processCommand fCannedStopCommand :: r.2.map RunEvent.digitizer) ++ stops)
  else
    (s, RunEvent.serverTerminate :: stops)

/-- Index of the first occurrence of an event in a trace (length of the
trace when absent). -/
def eventIndex (e : RunEvent) (l : List RunEvent) : Nat :=
  match l with
  | [] => 0
  | x :: xs => if x = e then 0 else eventIndex e xs + 1

/-! ### HRegisteringBufferPool consumer registry -/

/-- State of `HRegisteringBufferPool` together with the `fConsumerID`
fields of the `HRegisteredConsumer` objects.  Consumer identities
(C++ pointers) are modelled as `Nat`; `consumerIDs c` is the current
value of consumer `c`'s `fConsumerID` field. -/
structure PoolState where
  fConsumerList : List Nat
  fNRegisteredConsumers : Nat
  consumerIDs : Nat → Nat

/-- The freshly constructed pool: empty consumer list, zero registered
consumers, and every consumer object's `fConsumerID` initialized to 0 by
the `HRegisteredConsumer` constructor. -/
def emptyPool : PoolState :=
  { fConsumerList := [], fNRegisteredConsumers := 0, consumerIDs := fun _ => 0 }

/-- `HRegisteringBufferPool::IsRegistered`: linear scan of the consumer
list for the given identity. -/
def IsRegistered (p : PoolState) (consumer : Nat) : Bool :=
  p.fConsumerList.foldl (fun is_present x => if x = consumer then true else is_present) false

/-- `HRegisteringBufferPool::RegisterConsumer`: if the identity is not
yet present, assign it the next sequential index (the current list
length) and append it; in either case refresh `fNRegisteredConsumers`
from the list length. -/
def RegisterConsumer (p : PoolState) (consumer : Nat) : PoolState :=
  let is_present := IsRegistered p consumer
  if is_present then
    { p with fNRegisteredConsumers := p.fConsumerList.length }
  else
    { fConsumerList := p.fConsumerList ++ [consumer]
      fNRegisteredConsumers := p.fConsumerList.length + 1
      consumerIDs := fun x => if x = consumer then p.fConsumerList.length else p.consumerIDs x }

/-- Register a sequence of consumer identities in order. -/
def registerAll (p : PoolState) (consumers : List Nat) : PoolState :=
  consumers.foldl RegisterConsumer p

/-! ### Writer stage buffer handling -/

/-- Observable events of one writer `ExecuteThreadTask` run; buffers are
identified by `Nat`. -/
inductive TaskEvent where
  | reserveBuffer
  | lockAcquire (b : Nat)
  | writeRecord (b : Nat)
  | lockRelease (b : Nat)
  | releaseBufferToProducer (b : Nat)
deriving DecidableEq

/-- Modelled from the spec: the consumer buffer policy codes
(`HConsumerBufferPolicyCode` is not among the sources); `Reserve`
returns one of success, no-buffer-available or timeout, with success a
nonzero flag value. -/
def HConsumerBufferPolicyCode_success : Nat := 1

/-- `HSimpleMultiThreadedSpectrumDataWriter::ExecuteThreadTask` as an
event trace, parameterized by the consumer pool size and by the outcome
`(buffer_code, tail)` of `ReserveBuffer`.  The per-buffer `lock_guard`
scope closes before the trailing null check that releases the buffer to
the producer. -/
def SpectrumWriterExecuteThreadTask (pool_size : Nat) (buffer_code : Nat)
    (tail : Option Nat) : List TaskEvent :=
  if pool_size ≠ 0 then
    TaskEvent.reserveBuffer ::
    (match tail with
     | some b =>
       (if buffer_code &&& HConsumerBufferPolicyCode_success ≠ 0 then
          [TaskEvent.lockAcquire b, TaskEvent.writeRecord b, TaskEvent.lockRelease b]
        else
          []) ++ [TaskEvent.releaseBufferToProducer b]
     | none => [])
  else
    []

/-- `HDataAccumulationWriter::ExecuteThreadTask` as an event trace; the
only control-flow difference from the spectrum writer is that the policy
code is compared for equality with success rather than bit-tested. -/
def AccumulationWriterExecuteThreadTask (pool_size : Nat) (buffer_code : Nat)
    (tail : Option Nat) : List TaskEvent :=
  if pool_size ≠ 0 then
    TaskEvent.reserveBuffer ::
    (match tail with
     | some b =>
       (if buffer_code = HConsumerBufferPolicyCode_success then
          [TaskEvent.lockAcquire b, TaskEvent.writeRecord b, TaskEvent.lockRelease b]
        else
          []) ++ [TaskEvent.releaseBufferToProducer b]
     | none => [])
  else
    []

/-- Number of occurrences of a task event in a trace. -/
def taskEventCount (e : TaskEvent) (l : List TaskEvent) : Nat :=
  match l with
  | [] => 0
  | x :: xs => (if x = e then 1 else 0) + taskEventCount e xs

/-- Index of the first occurrence of a task event in a trace (length of
the trace when absent). -/
def taskEventIndex (e : TaskEvent) (l : List TaskEvent) : Nat :=
  match l with
  | [] => 0
  | x :: xs => if x = e then 0 else taskEventIndex e xs + 1

/-! ### Helper lemmas -/

theorem lookUpCommand_length_of_record_on (t : List String) (h : LookUpCommand t = RECORD_ON) :
    t.length = 5 := by
  unfold LookUpCommand at h
  split_ifs at h with h1 h2 h3 h4 h5 <;> simp_all [RECORD_ON, RECORD_OFF, CONFIGURE_NEXT_RECORDING, UNKNOWN]

theorem lookUpCommand_length_of_record_off (t : List String) (h : LookUpCommand t = RECORD_OFF) :
    t.length = 2 := by
  unfold LookUpCommand at h
  split_ifs at h with h1 h2 h3 h4 h5 <;> simp_all [RECORD_ON, RECORD_OFF, CONFIGURE_NEXT_RECORDING, UNKNOWN]

theorem lookUpCommand_length_of_configure (t : List String)
    (h : LookUpCommand t = CONFIGURE_NEXT_RECORDING) : t.length = 7 := by
  unfold LookUpCommand at h
  split_ifs at h with h1 h2 h3 h4 h5 <;> simp_all [RECORD_ON, RECORD_OFF, CONFIGURE_NEXT_RECORDING, UNKNOWN]

/-! ### C1 -/

/-- C1 (counterexample): the claim says any timestamp within 1 second of
`now` inclusive is classified `TIME_PENDING`; but at `now = 1000` the
timestamp `t = 1000` lies within the claimed band and the code classifies
it `TIME_AFTER`, not `TIME_PENDING`. -/
theorem time_state_at_now_not_pending :
    (1000 - 1 ≤ 1000 ∧ 1000 ≤ 1000 + 1) ∧
    DetermineTimeStateWRTNow 1000 1000 = TIME_AFTER ∧
    DetermineTimeStateWRTNow 1000 1000 ≠ TIME_PENDING := by
  decide

/-- C1 (amended): for every wall-clock second `now` with
`1 ≤ now < 2 ^ 64` (no `uint64_t` underflow in `now - 1`) and stored
timestamp `t`, `DetermineTimeStateWRTNow` returns `TIME_BEFORE` exactly
when `t < now - 1`, `TIME_PENDING` exactly when `now - 1 ≤ t < now`
(that is, only for `t = now - 1`), `TIME_AFTER` exactly when `now ≤ t`,
and never `TIME_ERROR`. -/
theorem determineTimeState_classification (now t : Nat) (h1 : 1 ≤ now) (h2 : now < 2 ^ 64) :
    (DetermineTimeStateWRTNow now t = TIME_BEFORE ↔ t < now - 1) ∧
    (DetermineTimeStateWRTNow now t = TIME_PENDING ↔ (now - 1 ≤ t ∧ t < now)) ∧
    (DetermineTimeStateWRTNow now t = TIME_AFTER ↔ now ≤ t) ∧
    DetermineTimeStateWRTNow now t ≠ TIME_ERROR := by
  have hm : (now + (2 ^ 64 - 1)) % 2 ^ 64 = now - 1 := by
    have he : now + (2 ^ 64 - 1) = (now - 1) + 2 ^ 64 := by omega
    rw [he, Nat.add_mod_right, Nat.mod_eq_of_lt (by omega)]
  simp only [DetermineTimeStateWRTNow, hm]
  split_ifs with h3 h4 h5 <;>
    simp_all [TIME_BEFORE, TIME_PENDING, TIME_AFTER, TIME_ERROR] <;> omega

/-- Witness for C1 (amended) at `now = 1000`, `t = 999`. -/
theorem determineTimeState_classification_witness :
    DetermineTimeStateWRTNow 1000 999 = TIME_PENDING :=
  ((determineTimeState_classification 1000 999 (by decide) (by decide)).2.1).mpr (by decide)

/-! ### C4 -/

/-- C4: `LookUpCommand` classifies a token list as `RECORD_ON` iff field
0 is "record", field 1 is "on" and there are exactly 5 fields; as
`RECORD_OFF` iff field 0 is "record", field 1 is "off" and there are
exactly 2 fields; as `CONFIGURE_NEXT_RECORDING` iff field 0 is "record",
field 1 is "set" and there are exactly 7 fields; and as `UNKNOWN` in
exactly the remaining cases. -/
theorem lookUpCommand_classification (t : List String) :
    (LookUpCommand t = RECORD_ON ↔
      t.getD 0 "" = "record" ∧ t.getD 1 "" = "on" ∧ t.length = 5) ∧
    (LookUpCommand t = RECORD_OFF ↔
      t.getD 0 "" = "record" ∧ t.getD 1 "" = "off" ∧ t.length = 2) ∧
    (LookUpCommand t = CONFIGURE_NEXT_RECORDING ↔
      t.getD 0 "" = "record" ∧ t.getD 1 "" = "set" ∧ t.length = 7) ∧
    (LookUpCommand t = UNKNOWN ↔
      ¬ (t.getD 0 "" = "record" ∧ t.getD 1 "" = "on" ∧ t.length = 5) ∧
      ¬ (t.getD 0 "" = "record" ∧ t.getD 1 "" = "off" ∧ t.length = 2) ∧
      ¬ (t.getD 0 "" = "record" ∧ t.getD 1 "" = "set" ∧ t.length = 7)) := by
  unfold LookUpCommand
  split_ifs with h1 h2 h3 h4 h5 <;>
    simp_all [RECORD_ON, RECORD_OFF, CONFIGURE_NEXT_RECORDING, UNKNOWN,
      -List.getD_eq_getElem?_getD] <;> try omega

/-! ### C5 -/

theorem splitOnDelim_of_not_mem (d : Char) (l : List Char) (h : ¬ d ∈ l) :
    splitOnDelim d l = [l] := by
  induction l with
  | nil => rfl
  | cons c rest ih =>
    have hc : ¬ (c = d) := by intro he; subst he; simp_all
    have hr : ¬ d ∈ rest := by simp_all
    simp [splitOnDelim, hc, ih hr]

/-- C5 (counterexample): the claim says `Tokenize` splits once on the
first `=`; on `"record=on=off"` splitting once would give the two parts
`"record"` and `"on=off"` and hence the field list
`["record", "on=off"]`, but the code splits at every `=`, gets three
parts, and returns the empty field list. -/
theorem tokenize_multiple_equals_not_split_once :
    Tokenize "record=on=off" = [] ∧
    TokenizeSpecOnce "record=on=off" = ["record", "on=off"] ∧
    ¬ Tokenize "record=on=off" = TokenizeSpecOnce "record=on=off" := by
  decide

/-- C5 (amended): `Tokenize` splits the command at every `=` with empty
parts discarded; unless exactly two parts result it returns the empty
field list (in particular a string with no `=` at all, such as
`"recordon"`, yields the empty field list); otherwise it splits the
right-hand part on `:` preserving empty fields and returns that list
with the verb reinserted as field 0. -/
theorem tokenize_characterization (cmd : String) :
    (¬ Char.ofNat 61 ∈ cmd.data → Tokenize cmd = []) ∧
    ((GetTokens false (Char.ofNat 61) cmd).length ≠ 2 → Tokenize cmd = []) ∧
    (∀ a b, GetTokens false (Char.ofNat 61) cmd = [a, b] →
      Tokenize cmd = a :: GetTokens true (Char.ofNat 58) b) := by
  refine ⟨?_, ?_, ?_⟩
  · intro h
    have hsplit : splitOnDelim (Char.ofNat 61) cmd.data = [cmd.data] :=
      splitOnDelim_of_not_mem _ _ h
    by_cases hc : String.mk cmd.data = ""
    · simp [Tokenize, GetTokens, hsplit, hc]
    · simp [Tokenize, GetTokens, hsplit, hc]
  · intro h
    simp [Tokenize, h]
  · intro a b hab
    simp [Tokenize, hab]

/-- Witness for C5 (amended): a command with no `=` tokenizes to the
empty field list. -/
theorem tokenize_characterization_witness : Tokenize "recordon" = [] :=
  (tokenize_characterization "recordon").1 (by decide)

/-! ### C8 -/

/-- C8: a command classified `UNKNOWN` (whether from malformed
tokenization or a field-count/verb mismatch) leaves the whole scheduler
state unchanged and invokes no digitizer operation. -/
theorem unknownCommand_no_state_change (now : Nat) (cmd : String) (s : SchedulerState)
    (h : LookUpCommand (Tokenize cmd) = UNKNOWN) :
    ProcessCommand now cmd s = (s, []) := by
  by_cases hl : (Tokenize cmd).length = 0 <;>
    simp [ProcessCommand, h, hl, RECORD_ON, RECORD_OFF, CONFIGURE_NEXT_RECORDING, UNKNOWN]

/-- Witness for C8: the spec's example `"recordon"` (no `=`), dispatched
against an arbitrary concrete non-idle state. -/
theorem unknownCommand_no_state_change_witness :
    ProcessCommand 1000 "recordon" ⟨PENDING, "E", "S", "C", 9, 5⟩ =
      (⟨PENDING, "E", "S", "C", 9, 5⟩, []) :=
  unknownCommand_no_state_change 1000 "recordon" _ (by decide)

/-! ### C7 -/

/-- C7 (counterexample): the claim says session metadata is mutated only
during a transition out of `Idle`; but a stale `ConfigureNextRecording`
(`end` not after `now`) leaves the scheduler in `IDLE` — no transition
out of Idle occurs — while the metadata fields are overwritten. -/
theorem staleConfigure_mutates_metadata_while_idle :
    (ProcessCommand 1000 "record=set:NewE:NewS:NewC:0:0"
        ⟨IDLE, "OldE", "OldS", "OldC", 0, 0⟩).1.fRecordingState = IDLE ∧
    ¬ SessionMetadata (ProcessCommand 1000 "record=set:NewE:NewS:NewC:0:0"
        ⟨IDLE, "OldE", "OldS", "OldC", 0, 0⟩).1 =
      SessionMetadata ⟨IDLE, "OldE", "OldS", "OldC", 0, 0⟩ := by
  decide

/-- C7 (amended): the session metadata is mutated only while processing
a `RECORD_ON` or `CONFIGURE_NEXT_RECORDING` command in the `IDLE` state
(even when the state remains `IDLE` because the window is stale); every
other command processing — `RECORD_OFF` returning the scheduler to
`IDLE` included — leaves the metadata exactly unchanged, so it is never
cleared on return to `IDLE`. -/
theorem sessionMetadata_frame (now : Nat) (cmd : String) (s : SchedulerState)
    (h : ¬ (s.fRecordingState = IDLE ∧
        (LookUpCommand (Tokenize cmd) = RECORD_ON ∨
         LookUpCommand (Tokenize cmd) = CONFIGURE_NEXT_RECORDING))) :
    SessionMetadata (ProcessCommand now cmd s).1 = SessionMetadata s := by
  simp only [ProcessCommand]
  split_ifs <;> simp_all [SessionMetadata]

/-- Witness for C7 (amended): `record=off` from `RECORDING_UNTIL_OFF`
returns to `IDLE` with the metadata untouched. -/
theorem sessionMetadata_frame_witness :
    SessionMetadata (ProcessCommand 1000 "record=off"
        ⟨RECORDING_UNTIL_OFF, "E", "S", "C", 9, 5⟩).1 =
      SessionMetadata ⟨RECORDING_UNTIL_OFF, "E", "S", "C", 9, 5⟩ :=
  sessionMetadata_frame 1000 "record=off" _ (by decide)

/-! ### C3 -/

/-- C3: a `RECORD_OFF` command processed in `RECORDING_UNTIL_OFF`,
`RECORDING_UNTIL_TIME` or `PENDING` moves the scheduler to `IDLE`, with
`StopAfterNextBuffer` invoked exactly when the prior state was one of
the two recording states (not `PENDING`); processed while already
`IDLE` it changes nothing at all. -/
theorem recordOff_transitions (now : Nat) (cmd : String) (s : SchedulerState)
    (hcmd : LookUpCommand (Tokenize cmd) = RECORD_OFF) :
    ((s.fRecordingState = RECORDING_UNTIL_OFF ∨ s.fRecordingState = RECORDING_UNTIL_TIME ∨
        s.fRecordingState = PENDING) →
      (ProcessCommand now cmd s).1.fRecordingState = IDLE ∧
      ((ProcessCommand now cmd s).2 = [DigitizerOp.StopAfterNextBuffer] ↔
        (s.fRecordingState = RECORDING_UNTIL_OFF ∨ s.fRecordingState = RECORDING_UNTIL_TIME)) ∧
      (s.fRecordingState = PENDING → (ProcessCommand now cmd s).2 = [])) ∧
    (s.fRecordingState = IDLE → ProcessCommand now cmd s = (s, [])) := by
  have hlen : (Tokenize cmd).length = 2 := lookUpCommand_length_of_record_off _ hcmd
  constructor
  · intro hstate
    rcases hstate with h | h | h <;>
      simp [ProcessCommand, hcmd, hlen, h, RECORD_ON, RECORD_OFF, CONFIGURE_NEXT_RECORDING,
        UNKNOWN, RECORDING_UNTIL_OFF, RECORDING_UNTIL_TIME, IDLE, PENDING]
  · intro h
    simp [ProcessCommand, hcmd, hlen, h, RECORD_ON, RECORD_OFF, CONFIGURE_NEXT_RECORDING,
      UNKNOWN, RECORDING_UNTIL_OFF, RECORDING_UNTIL_TIME, IDLE, PENDING]

/-- Witness for C3: `record=off` from `PENDING` goes to `IDLE` without a
digitizer stop. -/
theorem recordOff_transitions_witness :
    (ProcessCommand 1000 "record=off" ⟨PENDING, "E", "S", "C", 9, 5⟩).1.fRecordingState = IDLE ∧
    (ProcessCommand 1000 "record=off" ⟨PENDING, "E", "S", "C", 9, 5⟩).2 = [] := by
  have h := (recordOff_transitions 1000 "record=off" ⟨PENDING, "E", "S", "C", 9, 5⟩
    (by decide)).1 (by decide)
  exact ⟨h.1, h.2.2 (by decide)⟩

/-! ### C2 -/

set_option maxHeartbeats 1600000 in
/-- C2: a `CONFIGURE_NEXT_RECORDING` command processed in `IDLE`, with
`start` parsed from field 5 and `end = start + duration` parsed from
field 6 (no `uint64_t` overflow): if `end` is not classified
`TIME_AFTER` the state remains `IDLE` and no acquisition starts; if
`end` is `TIME_AFTER` and `start` is `TIME_BEFORE` or `TIME_PENDING`
the state becomes `RECORDING_UNTIL_TIME` and `Acquire` is invoked; if
`end` is `TIME_AFTER` and `start` is `TIME_AFTER` the state becomes
`PENDING` and `Acquire` is not invoked. -/
theorem configureNextRecording_transitions (now : Nat) (cmd : String) (s : SchedulerState)
    (hidle : s.fRecordingState = IDLE)
    (hcmd : LookUpCommand (Tokenize cmd) = CONFIGURE_NEXT_RECORDING)
    (hno : ConvertStringToTime ((Tokenize cmd).getD 5 "") +
        ConvertStringToDuration ((Tokenize cmd).getD 6 "") < 2 ^ 64) :
    (DetermineTimeStateWRTNow now (ConvertStringToTime ((Tokenize cmd).getD 5 "") +
          ConvertStringToDuration ((Tokenize cmd).getD 6 "")) ≠ TIME_AFTER →
      (ProcessCommand now cmd s).1.fRecordingState = IDLE ∧
      (ProcessCommand now cmd s).2 = []) ∧
    (DetermineTimeStateWRTNow now (ConvertStringToTime ((Tokenize cmd).getD 5 "") +
          ConvertStringToDuration ((Tokenize cmd).getD 6 "")) = TIME_AFTER →
      ((DetermineTimeStateWRTNow now (ConvertStringToTime ((Tokenize cmd).getD 5 "")) =
            TIME_BEFORE ∨
        DetermineTimeStateWRTNow now (ConvertStringToTime ((Tokenize cmd).getD 5 "")) =
            TIME_PENDING) →
        (ProcessCommand now cmd s).1.fRecordingState = RECORDING_UNTIL_TIME ∧
        (ProcessCommand now cmd s).2 = [DigitizerOp.Acquire]) ∧
      (DetermineTimeStateWRTNow now (ConvertStringToTime ((Tokenize cmd).getD 5 "")) =
          TIME_AFTER →
        (ProcessCommand now cmd s).1.fRecordingState = PENDING ∧
        (ProcessCommand now cmd s).2 = [])) := by
  have hlen : (Tokenize cmd).length = 7 := lookUpCommand_length_of_configure _ hcmd
  have hmod : (ConvertStringToTime ((Tokenize cmd).getD 5 "") +
      ConvertStringToDuration ((Tokenize cmd).getD 6 "")) % 2 ^ 64 =
      ConvertStringToTime ((Tokenize cmd).getD 5 "") +
      ConvertStringToDuration ((Tokenize cmd).getD 6 "") := Nat.mod_eq_of_lt hno
  refine ⟨fun hend => ?_, fun hend => ⟨fun hstart => ?_, fun hstart => ?_⟩⟩ <;>
  · simp only [ProcessCommand]
    rw [hmod]
    split_ifs <;>
      simp_all [RECORD_ON, RECORD_OFF, CONFIGURE_NEXT_RECORDING, UNKNOWN,
        RECORDING_UNTIL_OFF, RECORDING_UNTIL_TIME, IDLE, PENDING,
        TIME_BEFORE, TIME_PENDING, TIME_AFTER]

/-- Witness for C2 at `now = 1000` with window `[2000, 2060]`: both
times are still in the future, so the scheduler parks in `PENDING`. -/
theorem configureNextRecording_transitions_witness :
    (ProcessCommand 1000 "record=set:E:S:C:2000:60"
        ⟨IDLE, "", "", "", 0, 0⟩).1.fRecordingState = PENDING ∧
    (ProcessCommand 1000 "record=set:E:S:C:2000:60" ⟨IDLE, "", "", "", 0, 0⟩).2 = [] :=
  ((configureNextRecording_transitions 1000 "record=set:E:S:C:2000:60"
      ⟨IDLE, "", "", "", 0, 0⟩ (by decide) (by decide) (by decide)).2
    (by decide)).2 (by decide)

/-! ### C6 -/

theorem isRegistered_loop (c : Nat) (l : List Nat) (b : Bool) :
    (l.foldl (fun is_present x => if x = c then true else is_present) b = true) ↔
      (b = true ∨ c ∈ l) := by
  induction l generalizing b with
  | nil => simp
  | cons x xs ih =>
    simp only [List.foldl_cons]
    rw [ih]
    by_cases hx : x = c
    · subst hx
      simp
    · have hcx : ¬ (c = x) := fun h => hx h.symm
      simp [hx, hcx]

theorem isRegistered_iff_mem (p : PoolState) (c : Nat) :
    IsRegistered p c = true ↔ c ∈ p.fConsumerList := by
  unfold IsRegistered
  rw [isRegistered_loop]
  simp

theorem registerConsumer_of_mem (p : PoolState) (c : Nat) (h : c ∈ p.fConsumerList) :
    RegisterConsumer p c = { p with fNRegisteredConsumers := p.fConsumerList.length } := by
  simp only [RegisterConsumer]
  rw [if_pos ((isRegistered_iff_mem p c).mpr h)]

theorem registerConsumer_of_not_mem (p : PoolState) (c : Nat) (h : ¬ c ∈ p.fConsumerList) :
    RegisterConsumer p c =
      { fConsumerList := p.fConsumerList ++ [c]
        fNRegisteredConsumers := p.fConsumerList.length + 1
        consumerIDs := fun x => if x = c then p.fConsumerList.length else p.consumerIDs x } := by
  simp only [RegisterConsumer]
  rw [if_neg]
  intro hreg
  exact h ((isRegistered_iff_mem p c).mp hreg)

theorem registerAll_cons (p : PoolState) (x : Nat) (xs : List Nat) :
    registerAll p (x :: xs) = registerAll (RegisterConsumer p x) xs := rfl

theorem registerConsumer_mem_self (p : PoolState) (c : Nat) :
    c ∈ (RegisterConsumer p c).fConsumerList := by
  by_cases h : c ∈ p.fConsumerList
  · rw [registerConsumer_of_mem p c h]
    exact h
  · rw [registerConsumer_of_not_mem p c h]
    simp

theorem mem_registerAll_of_mem (L : List Nat) (p : PoolState) (c : Nat)
    (h : c ∈ p.fConsumerList) : c ∈ (registerAll p L).fConsumerList := by
  induction L generalizing p with
  | nil => exact h
  | cons x xs ih =>
    rw [registerAll_cons]
    apply ih
    by_cases hx : x ∈ p.fConsumerList
    · rw [registerConsumer_of_mem p x hx]
      exact h
    · rw [registerConsumer_of_not_mem p x hx]
      simp [h]

theorem mem_registerAll_self (L : List Nat) (p : PoolState) (c : Nat) (h : c ∈ L) :
    c ∈ (registerAll p L).fConsumerList := by
  induction L generalizing p with
  | nil => cases h
  | cons x xs ih =>
    rw [registerAll_cons]
    rcases List.mem_cons.mp h with rfl | hxs
    · exact mem_registerAll_of_mem xs _ c (registerConsumer_mem_self p c)
    · exact ih _ hxs

theorem nodup_registerAll (L : List Nat) (p : PoolState) (h : p.fConsumerList.Nodup) :
    (registerAll p L).fConsumerList.Nodup := by
  induction L generalizing p with
  | nil => exact h
  | cons x xs ih =>
    rw [registerAll_cons]
    apply ih
    by_cases hx : x ∈ p.fConsumerList
    · rw [registerConsumer_of_mem p x hx]
      exact h
    · rw [registerConsumer_of_not_mem p x hx]
      simp [List.nodup_append, h, hx]

theorem registerAll_ids_of_not_mem (L : List Nat) (p : PoolState) (x : Nat) (h : ¬ x ∈ L) :
    (registerAll p L).consumerIDs x = p.consumerIDs x := by
  induction L generalizing p with
  | nil => rfl
  | cons y ys ih =>
    have hy : ¬ x ∈ ys := fun hc => h (List.mem_cons_of_mem y hc)
    have hxy : ¬ (x = y) := fun he => h (he ▸ List.mem_cons_self y ys)
    rw [registerAll_cons, ih _ hy]
    by_cases hmem : y ∈ p.fConsumerList
    · rw [registerConsumer_of_mem p y hmem]
    · rw [registerConsumer_of_not_mem p y hmem]
      simp [hxy]

theorem registerAll_list_of_fresh (L : List Nat) (p : PoolState)
    (hf : ∀ c, c ∈ L → ¬ c ∈ p.fConsumerList) (hn : L.Nodup) :
    (registerAll p L).fConsumerList = p.fConsumerList ++ L := by
  induction L generalizing p with
  | nil => simp [registerAll]
  | cons x xs ih =>
    have hx : ¬ x ∈ p.fConsumerList := hf x (List.mem_cons_self x xs)
    rw [registerAll_cons, ih]
    · rw [registerConsumer_of_not_mem p x hx]
      simp
    · intro c hc
      rw [registerConsumer_of_not_mem p x hx]
      simp only [List.mem_append, List.mem_singleton]
      rintro (hcp | rfl)
      · exact hf c (List.mem_cons_of_mem x hc) hcp
      · exact (List.nodup_cons.mp hn).1 hc
    · exact (List.nodup_cons.mp hn).2

theorem registerAll_ids_of_fresh (L : List Nat) (p : PoolState)
    (hf : ∀ c, c ∈ L → ¬ c ∈ p.fConsumerList) (hn : L.Nodup) :
    ∀ i, (h : i < L.length) →
      (registerAll p L).consumerIDs (L.get ⟨i, h⟩) = p.fConsumerList.length + i := by
  induction L generalizing p with
  | nil =>
    intro i h
    exact absurd h (by simp)
  | cons x xs ih =>
    intro i h
    have hx : ¬ x ∈ p.fConsumerList := hf x (List.mem_cons_self x xs)
    match i with
    | 0 =>
      rw [registerAll_cons]
      have hxxs : ¬ x ∈ xs := (List.nodup_cons.mp hn).1
      show (registerAll (RegisterConsumer p x) xs).consumerIDs x = p.fConsumerList.length + 0
      rw [registerAll_ids_of_not_mem xs _ x hxxs, registerConsumer_of_not_mem p x hx]
      simp
    | Nat.succ j =>
      rw [registerAll_cons]
      have hj : j < xs.length := by simpa using h
      have hf2 : ∀ c, c ∈ xs → ¬ c ∈ (RegisterConsumer p x).fConsumerList := by
        intro c hc
        rw [registerConsumer_of_not_mem p x hx]
        simp only [List.mem_append, List.mem_singleton]
        rintro (hcp | rfl)
        · exact hf c (List.mem_cons_of_mem x hc) hcp
        · exact (List.nodup_cons.mp hn).1 hc
      have hlen2 : (RegisterConsumer p x).fConsumerList.length = p.fConsumerList.length + 1 := by
        rw [registerConsumer_of_not_mem p x hx]
        simp
      have := ih (RegisterConsumer p x) hf2 (List.nodup_cons.mp hn).2 j hj
      rw [hlen2] at this
      show (registerAll (RegisterConsumer p x) xs).consumerIDs ((x :: xs).get ⟨j + 1, h⟩) =
        p.fConsumerList.length + (j + 1)
      rw [List.get_cons_succ, show p.fConsumerList.length + (j + 1) =
        p.fConsumerList.length + 1 + j by omega]
      exact this
      

/-- C6: consumer registration is idempotent — registering an
already-registered identity changes nothing, in particular not its
assigned index — a repeated identity ends up with exactly one
registration, and any `Nodup` sequence of identities is stored in
first-registration order with `fConsumerID` indices `0..N-1`. -/
theorem registerConsumer_registry (L : List Nat) :
    (∀ c, c ∈ L → (registerAll emptyPool L).fConsumerList.count c = 1) ∧
    (∀ p c, RegisterConsumer (RegisterConsumer p c) c = RegisterConsumer p c) ∧
    (L.Nodup →
      (registerAll emptyPool L).fConsumerList = L ∧
      ∀ i, (h : i < L.length) → (registerAll emptyPool L).consumerIDs (L.get ⟨i, h⟩) = i) := by
  refine ⟨?_, ?_, ?_⟩
  · intro c hc
    exact List.count_eq_one_of_mem (nodup_registerAll L emptyPool (by simp [emptyPool]))
      (mem_registerAll_self L emptyPool c hc)
  · intro p c
    by_cases h : c ∈ p.fConsumerList
    · rw [registerConsumer_of_mem p c h,
        registerConsumer_of_mem { p with fNRegisteredConsumers := p.fConsumerList.length } c h]
    · rw [registerConsumer_of_not_mem p c h]
      rw [registerConsumer_of_mem _ c (by simp)]
      simp
  · intro hn
    constructor
    · simpa [emptyPool] using registerAll_list_of_fresh L emptyPool (by simp [emptyPool]) hn
    · intro i h
      simpa [emptyPool] using registerAll_ids_of_fresh L emptyPool (by simp [emptyPool]) hn i h

/-- Witness for C6 on the registration order `[7, 3, 9]`. -/
theorem registerConsumer_registry_witness :
    (registerAll emptyPool [7, 3, 9]).fConsumerList.count 3 = 1 ∧
    (registerAll emptyPool [7, 3, 9]).fConsumerList = [7, 3, 9] ∧
    (registerAll emptyPool [7, 3, 9]).consumerIDs 9 = 2 := by
  refine ⟨(registerConsumer_registry [7, 3, 9]).1 3 (by decide), ?_, ?_⟩
  · exact ((registerConsumer_registry [7, 3, 9]).2.2 (by decide)).1
  · have h9 := ((registerConsumer_registry [7, 3, 9]).2.2 (by decide)).2 2 (by decide)
    simpa using h9

/-! ### C9 -/

theorem processCommand_canned_stop_ops (now : Nat) (s : SchedulerState) :
    (ProcessCommand now fCannedStopCommand s).2 = [] ∨
    (ProcessCommand now fCannedStopCommand s).2 = [DigitizerOp.StopAfterNextBuffer] := by
  have hcmd : LookUpCommand (Tokenize fCannedStopCommand) = RECORD_OFF := by decide
  have hlen : (Tokenize fCannedStopCommand).length = 2 := by decide
  simp only [ProcessCommand, hcmd, hlen]
  norm_num [RECORD_ON, RECORD_OFF, CONFIGURE_NEXT_RECORDING, UNKNOWN]
  split_ifs <;> simp

/-- C9: in the shutdown tail of `Run`, the canned `record=off` command
is processed exactly when the scheduler is not `IDLE`; any command
processing precedes every stage stop; the stages stop in strict
pipeline order (digitizer production, then the spectrometer transform,
then the persistence writer); and each stop is immediately preceded by
a grace sleep. -/
theorem shutdown_pipeline_order (now : Nat) (s : SchedulerState) :
    (RunEvent.processCommand fCannedStopCommand ∈ (RunShutdown now s).2 ↔
      ¬ s.fRecordingState = IDLE) ∧
    (∀ c, RunEvent.processCommand c ∈ (RunShutdown now s).2 →
      eventIndex (RunEvent.processCommand c) (RunShutdown now s).2 <
        eventIndex RunEvent.stopDigitizerProduction (RunShutdown now s).2) ∧
    eventIndex RunEvent.stopDigitizerProduction (RunShutdown now s).2 <
      eventIndex RunEvent.stopSpectrometerConsumptionProduction (RunShutdown now s).2 ∧
    eventIndex RunEvent.stopSpectrometerConsumptionProduction (RunShutdown now s).2 <
      eventIndex RunEvent.stopWriterConsumption (RunShutdown now s).2 ∧
    ((RunShutdown now s).2)[eventIndex RunEvent.stopDigitizerProduction
        (RunShutdown now s).2 - 1]? = some RunEvent.sleepGrace ∧
    ((RunShutdown now s).2)[eventIndex RunEvent.stopSpectrometerConsumptionProduction
        (RunShutdown now s).2 - 1]? = some RunEvent.sleepGrace ∧
    ((RunShutdown now s).2)[eventIndex RunEvent.stopWriterConsumption
        (RunShutdown now s).2 - 1]? = some RunEvent.sleepGrace := by
  by_cases hidle : s.fRecordingState = IDLE
  · simp [RunShutdown, hidle, eventIndex]
  · rcases processCommand_canned_stop_ops now s with hop | hop <;>
      simp [RunShutdown, hidle, hop, eventIndex]

/-- Witness for C9: shutting down from `RECORDING_UNTIL_TIME` does
process the canned stop command. -/
theorem shutdown_pipeline_order_witness :
    RunEvent.processCommand fCannedStopCommand ∈
      (RunShutdown 1000 ⟨RECORDING_UNTIL_TIME, "E", "S", "C", 9, 5⟩).2 :=
  (shutdown_pipeline_order 1000 ⟨RECORDING_UNTIL_TIME, "E", "S", "C", 9, 5⟩).1.mpr (by decide)

/-! ### C10 -/

/-- C10: in each writer stage's `ExecuteThreadTask`, whenever
`ReserveBuffer` was called and produced a non-null buffer, that buffer
is released back to the producer exactly once before the task returns —
also when the policy code is not success — and whenever the per-buffer
lock was taken, it is released strictly before `ReleaseBufferToProducer`
is invoked; this holds for both the spectrum writer and the
accumulation writer. -/
theorem writer_task_release_discipline (n code : Nat) (tail : Option Nat) (b : Nat)
    (hb : tail = some b) :
    (TaskEvent.reserveBuffer ∈ SpectrumWriterExecuteThreadTask n code tail →
      taskEventCount (TaskEvent.releaseBufferToProducer b)
        (SpectrumWriterExecuteThreadTask n code tail) = 1 ∧
      (TaskEvent.lockAcquire b ∈ SpectrumWriterExecuteThreadTask n code tail →
        taskEventIndex (TaskEvent.lockRelease b) (SpectrumWriterExecuteThreadTask n code tail) <
          taskEventIndex (TaskEvent.releaseBufferToProducer b)
            (SpectrumWriterExecuteThreadTask n code tail))) ∧
    (TaskEvent.reserveBuffer ∈ AccumulationWriterExecuteThreadTask n code tail →
      taskEventCount (TaskEvent.releaseBufferToProducer b)
        (AccumulationWriterExecuteThreadTask n code tail) = 1 ∧
      (TaskEvent.lockAcquire b ∈ AccumulationWriterExecuteThreadTask n code tail →
        taskEventIndex (TaskEvent.lockRelease b) (AccumulationWriterExecuteThreadTask n code tail) <
          taskEventIndex (TaskEvent.releaseBufferToProducer b)
            (AccumulationWriterExecuteThreadTask n code tail))) := by
  subst hb
  by_cases hn : n = 0
  · simp [SpectrumWriterExecuteThreadTask, AccumulationWriterExecuteThreadTask, hn]
  · constructor
    · intro hres
      by_cases hcode : code &&& HConsumerBufferPolicyCode_success ≠ 0 <;>
        simp [SpectrumWriterExecuteThreadTask, hn, hcode, taskEventCount, taskEventIndex]
    · intro hres
      by_cases hcode : code = HConsumerBufferPolicyCode_success <;>
        simp [AccumulationWriterExecuteThreadTask, hn, hcode, taskEventCount, taskEventIndex]

/-- Witness for C10: a successful reservation of buffer 7 on a
nonempty pool. -/
theorem writer_task_release_discipline_witness :
    taskEventCount (TaskEvent.releaseBufferToProducer 7)
      (SpectrumWriterExecuteThreadTask 1 1 (some 7)) = 1 :=
  ((writer_task_release_discipline 1 1 (some 7) 7 rfl).1 (by decide)).1

/-- Witness for C4 on the concrete token list `["record", "off"]`. -/
theorem lookUpCommand_classification_witness :
    LookUpCommand ["record", "off"] = RECORD_OFF :=
  ((lookUpCommand_classification ["record", "off"]).2.1).mpr (by decide)
